import Mathlib

/-!
Verification of the glassworks bitstream decoder (src/glassworks/src/lib.rs).

The development shallowly embeds the Rust source: bytes are `Nat` values
(assumed `< 256` where it matters, since the source works on `u8`), the
16-bit accumulator of the checksum is a `Nat` with explicit `% 65536`
wrap-around, fallible operations return `Option`/`Except`, and the
`Bitstream::new` constructor is a function from the input byte list to a
decode result paired with the number of input bytes consumed.
-/

set_option maxRecDepth 100000

namespace Glassworks

/-- One step of the `reduce` closure inside `ecb_calc` (lib.rs lines 4-8):
`acc_carry = (acc >> 8) ^ 1`, `acc_value = acc & 0xff`,
result `acc_value + b + acc_carry`, with the `u16` wrap-around made
explicit as `% 65536`. -/
def ecb_step (acc b : Nat) : Nat :=
  ((acc &&& 0xff) + b + ((acc >>> 8) ^^^ 1)) % 65536

/-- The function `ecb_calc` (lib.rs lines 3-9): `reduce` starts from the first byte and
folds `ecb_step` over the rest; the final `as u8` cast is `% 256`.
`reduce` on an empty iterator yields `None` and the `unwrap` panics, so the
empty list maps to `none`. -/
def ecb_calc (row : List Nat) : Option Nat :=
  match row with
  | [] => none
  | b :: rest => some ((rest.foldl ecb_step b) % 256)

/-- The checksum fold exactly as §4.2 of the spec words it: the accumulator
starts as the first byte; for each subsequent byte `c`,
`carry = (accumulator >>> 8) ^^^ 1`, `low = accumulator &&& 0xff`, and the
new accumulator is `low + c + carry` (no wrap-around mentioned); the result
is the final accumulator `&&& 0xff`. -/
def ecb_spec (p : List Nat) : Option Nat :=
  match p with
  | [] => none
  | b :: rest =>
    some ((rest.foldl (fun acc c => (acc &&& 0xff) + c + ((acc >>> 8) ^^^ 1)) b) &&& 0xff)

/-- All intermediate accumulator values of the checksum fold, the initial
and final values included. -/
def ecb_states (acc : Nat) : List Nat → List Nat
  | [] => [acc]
  | b :: rest => acc :: ecb_states (ecb_step acc b) rest

lemma and_255_eq_mod (x : Nat) : x &&& 0xff = x % 256 := by
  have h := Nat.and_pow_two_sub_one_eq_mod x 8
  norm_num at h
  exact h

lemma carry_le_one {acc : Nat} (h : acc ≤ 0x1ff) : (acc >>> 8) ^^^ 1 ≤ 1 := by
  have hs : acc >>> 8 = acc / 2 ^ 8 := Nat.shiftRight_eq_div_pow acc 8
  have hdiv : acc / 2 ^ 8 ≤ 1 := by omega
  interval_cases h : acc / 2 ^ 8 <;> simp [hs, h]

lemma ecb_step_sum_le {acc b : Nat} (ha : acc ≤ 0x1ff) (hb : b < 256) :
    (acc &&& 0xff) + b + ((acc >>> 8) ^^^ 1) ≤ 0x1ff := by
  have h1 : acc &&& 0xff ≤ 0xff := Nat.and_le_right
  have h2 := carry_le_one ha
  omega

lemma ecb_step_eq_of_le {acc b : Nat} (ha : acc ≤ 0x1ff) (hb : b < 256) :
    ecb_step acc b = (acc &&& 0xff) + b + ((acc >>> 8) ^^^ 1) := by
  have h := ecb_step_sum_le ha hb
  unfold ecb_step
  omega

lemma ecb_step_le {acc b : Nat} (ha : acc ≤ 0x1ff) (hb : b < 256) :
    ecb_step acc b ≤ 0x1ff := by
  rw [ecb_step_eq_of_le ha hb]
  exact ecb_step_sum_le ha hb

/-- The two folds (wrapping implementation vs. non-wrapping spec wording)
agree and stay bounded by `0x1ff`, whenever the start value is a valid
accumulator and all folded bytes fit in a byte. -/
lemma ecb_foldl_eq (rest : List Nat) : ∀ acc : Nat, acc ≤ 0x1ff →
    (∀ b ∈ rest, b < 256) →
    rest.foldl ecb_step acc =
      rest.foldl (fun a c => (a &&& 0xff) + c + ((a >>> 8) ^^^ 1)) acc ∧
    rest.foldl ecb_step acc ≤ 0x1ff := by
  induction rest with
  | nil => intro acc ha _; exact ⟨rfl, ha⟩
  | cons b rest ih =>
    intro acc ha hb
    have hb0 : b < 256 := hb b (List.mem_cons_self b rest)
    have hrest : ∀ c ∈ rest, c < 256 := fun c hc => hb c (List.mem_cons_of_mem b hc)
    have hstep := ecb_step_le ha hb0
    have heq := ecb_step_eq_of_le ha hb0
    simpa [List.foldl_cons, heq] using ih (ecb_step acc b) hstep hrest

/-- C1: for every non-empty byte list, `ecb_calc` computes exactly the fold
described by the spec. -/
theorem ecb_calc_eq_spec (p : List Nat) (hne : p ≠ []) (hb : ∀ b ∈ p, b < 256) :
    ecb_calc p = ecb_spec p := by
  match p with
  | [] => exact absurd rfl hne
  | b :: rest =>
    have hb0 : b ≤ 0x1ff := by
      have := hb b (List.mem_cons_self b rest)
      omega
    have hrest : ∀ c ∈ rest, c < 256 := fun c hc => hb c (List.mem_cons_of_mem b hc)
    obtain ⟨heq, hle⟩ := ecb_foldl_eq rest b hb0 hrest
    simp only [ecb_calc, ecb_spec, heq, and_255_eq_mod]

/-- Witness for C1 at the concrete payload `[1, 2, 3]`. -/
theorem ecb_calc_eq_spec_witness :
    (([1, 2, 3] : List Nat) ≠ [] ∧ ∀ b ∈ ([1, 2, 3] : List Nat), b < 256) ∧
    ecb_calc [1, 2, 3] = ecb_spec [1, 2, 3] :=
  ⟨⟨by decide, by decide⟩, ecb_calc_eq_spec [1, 2, 3] (by decide) (by decide)⟩

lemma ecb_calc_isSome (p : List Nat) (hp : p ≠ []) : (ecb_calc p).isSome = true := by
  match p with
  | [] => exact absurd rfl hp
  | b :: rest => simp [ecb_calc]

/-- C3: `ecb_calc` is undefined (returns `none`, the `unwrap` panic) exactly
on the empty payload, and returns a byte for every non-empty payload. -/
theorem ecb_calc_empty_none_nonempty_some :
    ecb_calc [] = none ∧ ∀ p : List Nat, p ≠ [] → (ecb_calc p).isSome = true :=
  ⟨rfl, ecb_calc_isSome⟩

/-- Witness for C3 at the concrete payload `[0]`. -/
theorem ecb_calc_empty_none_nonempty_some_witness :
    (([0] : List Nat) ≠ []) ∧ (ecb_calc [0]).isSome = true :=
  ⟨by decide, ecb_calc_empty_none_nonempty_some.2 [0] (by decide)⟩

lemma ecb_states_all_le (rest : List Nat) : ∀ acc : Nat, acc ≤ 0x1ff →
    (∀ c ∈ rest, c < 256) → ∀ a ∈ ecb_states acc rest, a ≤ 0x1ff := by
  induction rest with
  | nil =>
    intro acc ha _ a hmem
    simp only [ecb_states, List.mem_singleton] at hmem
    exact hmem ▸ ha
  | cons b rest ih =>
    intro acc ha hb a hmem
    have hb0 : b < 256 := hb b (List.mem_cons_self b rest)
    have hrest : ∀ c ∈ rest, c < 256 := fun c hc => hb c (List.mem_cons_of_mem b hc)
    simp only [ecb_states, List.mem_cons] at hmem
    rcases hmem with rfl | hmem
    · exact ha
    · exact ih (ecb_step acc b) (ecb_step_le ha hb0) hrest a hmem

lemma ecb_states_getLastD (rest : List Nat) : ∀ acc d : Nat,
    (ecb_states acc rest).getLastD d = rest.foldl ecb_step acc := by
  induction rest with
  | nil => intro acc d; rfl
  | cons b rest ih =>
    intro acc d
    simp only [ecb_states, List.foldl_cons, List.getLastD_cons]
    exact ih (ecb_step acc b) acc

/-- C10: every accumulator the fold in `ecb_calc` reaches is at most `0x1ff`,
the derived carry is 0 or 1, and the `u16` addition `low + b + carry` stays
at most `0x1ff`, so it never wraps (the explicit `% 65536` is a no-op);
the result of `ecb_calc` is the low byte of the last of these accumulators. -/
theorem ecb_fold_never_overflows :
    (∀ acc b : Nat, acc ≤ 0x1ff → b < 256 →
      ((acc >>> 8) ^^^ 1) ≤ 1 ∧
      (acc &&& 0xff) + b + ((acc >>> 8) ^^^ 1) ≤ 0x1ff ∧
      ecb_step acc b = (acc &&& 0xff) + b + ((acc >>> 8) ^^^ 1)) ∧
    (∀ (b : Nat) (rest : List Nat), b < 256 → (∀ c ∈ rest, c < 256) →
      (∀ acc ∈ ecb_states b rest, acc ≤ 0x1ff) ∧
      ecb_calc (b :: rest) = some (((ecb_states b rest).getLastD 0) % 256)) := by
  constructor
  · intro acc b ha hb
    exact ⟨carry_le_one ha, ecb_step_sum_le ha hb, ecb_step_eq_of_le ha hb⟩
  · intro b rest hb hrest
    have hb' : b ≤ 0x1ff := by omega
    refine ⟨ecb_states_all_le rest b hb' hrest, ?_⟩
    simp only [ecb_calc, ecb_states_getLastD]

/-- Witness for C10 at the accumulator `0x1ff` with byte `0xff`, and the
concrete payload `[0, 1]`. -/
theorem ecb_fold_never_overflows_witness :
    ((0x1ff : Nat) ≤ 0x1ff ∧ (0xff : Nat) < 256 ∧
      ((0x1ff >>> 8) ^^^ 1) ≤ 1 ∧
      ((0x1ff : Nat) &&& 0xff) + 0xff + ((0x1ff >>> 8) ^^^ 1) ≤ 0x1ff ∧
      ecb_step 0x1ff 0xff = ((0x1ff : Nat) &&& 0xff) + 0xff + ((0x1ff >>> 8) ^^^ 1)) ∧
    ((0 : Nat) < 256 ∧ (∀ c ∈ ([1] : List Nat), c < 256) ∧
      (∀ acc ∈ ecb_states 0 [1], acc ≤ 0x1ff) ∧
      ecb_calc [0, 1] = some (((ecb_states 0 [1]).getLastD 0) % 256)) := by
  have h1 := ecb_fold_never_overflows.1 0x1ff 0xff (by decide) (by decide)
  have h2 := ecb_fold_never_overflows.2 0 [1] (by decide) (by decide)
  exact ⟨⟨by decide, by decide, h1.1, h1.2.1, h1.2.2⟩, ⟨by decide, by decide, h2.1, h2.2⟩⟩

/-- The first reference test vector of `ecb_calc_is_correct` (lib.rs line
111): 104 zero bytes. -/
def ecb_test_vector_1 : List Nat := List.replicate 104 0x00

/-- The second reference test vector of `ecb_calc_is_correct` (lib.rs line
113): 104 bytes, all zero except offsets 80 (0x20), 81 (0x02), 89 (0x10),
92 (0x01), 95 (0x10) and 98 (0x01). -/
def ecb_test_vector_2 : List Nat :=
  [0x00, 0x00, 0x00, 0x00, 0x00, 0x00, 0x00, 0x00, 0x00, 0x00, 0x00, 0x00, 0x00,
   0x00, 0x00, 0x00, 0x00, 0x00, 0x00, 0x00, 0x00, 0x00, 0x00, 0x00, 0x00, 0x00,
   0x00, 0x00, 0x00, 0x00, 0x00, 0x00, 0x00, 0x00, 0x00, 0x00, 0x00, 0x00, 0x00,
   0x00, 0x00, 0x00, 0x00, 0x00, 0x00, 0x00, 0x00, 0x00, 0x00, 0x00, 0x00, 0x00,
   0x00, 0x00, 0x00, 0x00, 0x00, 0x00, 0x00, 0x00, 0x00, 0x00, 0x00, 0x00, 0x00,
   0x00, 0x00, 0x00, 0x00, 0x00, 0x00, 0x00, 0x00, 0x00, 0x00, 0x00, 0x00, 0x00,
   0x00, 0x00, 0x20, 0x02, 0x00, 0x00, 0x00, 0x00, 0x00, 0x00, 0x00, 0x10, 0x00,
   0x00, 0x01, 0x00, 0x00, 0x10, 0x00, 0x00, 0x01, 0x00, 0x00, 0x00, 0x00, 0x00]

/-- C2 counterexample: the all-zero payload of length 95 has checksum 0x5e,
not 0x67 as the claim states. -/
theorem ecb_95_zeros_not_0x67 :
    ecb_calc (List.replicate 95 0x00) = some 0x5e ∧
    ecb_calc (List.replicate 95 0x00) ≠ some 0x67 := by
  constructor <;> decide

/-- C2 as amended: the reference vectors are 104 bytes long (the payload
width of a 105-byte MPA1036 row), and their checksums are 0x67 and 0xab. -/
theorem ecb_test_vectors :
    ecb_test_vector_1.length = 104 ∧ ecb_test_vector_2.length = 104 ∧
    ecb_calc ecb_test_vector_1 = some 0x67 ∧
    ecb_calc ecb_test_vector_2 = some 0xab := by
  refine ⟨by decide, by decide, by decide, by decide⟩

/-- The `Device` enumeration (lib.rs lines 12-17). -/
inductive Device
  | Mpa1016
  | Mpa1036
  | Mpa1064
  | Mpa1100
deriving DecidableEq, Repr

/-- The function `Device::try_from_jtag` (lib.rs lines 20-33): exact match of the idcode
against the four JTAG ID constants. -/
def Device.try_from_jtag (idcode : Nat) : Option Device :=
  if idcode = 0x1390E01D then some .Mpa1016
  else if idcode = 0x1391E01D then some .Mpa1036
  else if idcode = 0x1393401D then some .Mpa1064
  else if idcode = 0x1392001D then some .Mpa1100
  else none

/-- The accessor `Device::rows` (lib.rs lines 35-42). -/
def Device.rows : Device → Nat
  | .Mpa1016 => 95
  | .Mpa1036 => 139
  | .Mpa1064 => 183
  | .Mpa1100 => 227

/-- The accessor `Device::bytes_per_row` (lib.rs lines 44-51). -/
def Device.bytes_per_row : Device → Nat
  | .Mpa1016 => 576 / 8
  | .Mpa1036 => 840 / 8
  | .Mpa1064 => 1104 / 8
  | .Mpa1100 => 1360 / 8

/-- C4: `try_from_jtag` is an exact-match lookup against the four fixed
constants, returns `none` on every other identifier, and the four devices
expose the documented row counts and row widths. -/
theorem try_from_jtag_catalog :
    (∀ idcode : Nat, ∀ d : Device, Device.try_from_jtag idcode = some d ↔
      ((idcode = 0x1390E01D ∧ d = .Mpa1016) ∨ (idcode = 0x1391E01D ∧ d = .Mpa1036) ∨
       (idcode = 0x1393401D ∧ d = .Mpa1064) ∨ (idcode = 0x1392001D ∧ d = .Mpa1100))) ∧
    (∀ idcode : Nat, idcode ≠ 0x1390E01D → idcode ≠ 0x1391E01D →
      idcode ≠ 0x1393401D → idcode ≠ 0x1392001D → Device.try_from_jtag idcode = none) ∧
    (Device.rows .Mpa1016 = 95 ∧ Device.rows .Mpa1036 = 139 ∧
     Device.rows .Mpa1064 = 183 ∧ Device.rows .Mpa1100 = 227) ∧
    (Device.bytes_per_row .Mpa1016 = 72 ∧ Device.bytes_per_row .Mpa1036 = 105 ∧
     Device.bytes_per_row .Mpa1064 = 138 ∧ Device.bytes_per_row .Mpa1100 = 170) := by
  refine ⟨fun idcode d => ?_, fun idcode h1 h2 h3 h4 => ?_,
    ⟨rfl, rfl, rfl, rfl⟩, ⟨rfl, rfl, rfl, rfl⟩⟩
  · unfold Device.try_from_jtag
    split_ifs with h1 h2 h3 h4
    · subst h1; cases d <;> decide
    · subst h2; cases d <;> decide
    · subst h3; cases d <;> decide
    · subst h4; cases d <;> decide
    · simp_all
  · unfold Device.try_from_jtag
    split_ifs <;> simp_all

/-- Witness for C4 at the unrecognized identifier `0`. -/
theorem try_from_jtag_catalog_witness :
    ((0 : Nat) ≠ 0x1390E01D ∧ (0 : Nat) ≠ 0x1391E01D ∧
     (0 : Nat) ≠ 0x1393401D ∧ (0 : Nat) ≠ 0x1392001D) ∧
    Device.try_from_jtag 0 = none :=
  ⟨⟨by decide, by decide, by decide, by decide⟩,
   try_from_jtag_catalog.2.1 0 (by decide) (by decide) (by decide) (by decide)⟩

/-- One asserted configuration bit, printed by the source as
`row_index:column_index:bit`. -/
structure BitCoordinate where
  row : Nat
  column : Nat
  bit : Nat
deriving DecidableEq, Repr

/-- Which of the three unsupported-mode assertions fired (lib.rs lines
76-78). -/
inductive ModeFlag
  | testData
  | encrypted
  | compressed
deriving DecidableEq, Repr

/-- The ways `Bitstream::new` can fail. The source surfaces these as
`io::Error` (for short reads) or panics (for the panic and assert
calls); each distinct failure site becomes one constructor. -/
inductive DecodeError
  | truncatedInput
  | unknownDevice (idcode : Nat)
  | unsupportedMode (flag : ModeFlag)
  | reservedBitsSet
  | emptyRowPayload
  | checksumMismatch (rowIndex : Nat)
deriving DecidableEq, Repr

/-- The `Bitstream` struct (lib.rs lines 53-56). -/
structure Bitstream where
  device : Device
  data_type : Nat
deriving DecidableEq, Repr

/-- The value `u32::from_be_bytes` computes over a byte list (big-endian). -/
def be32 (bytes : List Nat) : Nat :=
  bytes.foldl (fun acc b => acc * 256 + b) 0

/-- The bit-emission loop for one row (lib.rs lines 86-92): for each payload
column and each bit 0..8, emit the coordinate when
`row[column_index] & (1 << bit) != 0`. -/
def emitRow (rowIndex bpr : Nat) (row : List Nat) : List BitCoordinate :=
  (List.range (bpr - 1)).flatMap (fun column_index =>
    (List.range 8).filterMap (fun bit =>
      if (row.getD column_index 0 &&& (1 <<< bit)) != 0 then
        some ⟨rowIndex, column_index, bit⟩
      else none))

/-- The row loop of `Bitstream::new` (lib.rs lines 82-96), with the number
of rows still to read made an explicit argument. Each iteration reads
`bytes_per_row` bytes, emits the row's coordinates, and checks the error
check byte; the returned `Nat` counts the input bytes consumed. -/
def decodeRows (device : Device) : Nat → Nat → List Nat →
    Except DecodeError (List BitCoordinate) × Nat
  | 0, _, _ => (Except.ok [], 0)
  | n + 1, rowIndex, input =>
    let bpr := device.bytes_per_row
    if input.length < bpr then (Except.error .truncatedInput, 0)
    else
      let row := input.take bpr
      match ecb_calc (row.take (bpr - 1)) with
      | none => (Except.error .emptyRowPayload, bpr)
      | some ecb =>
        if ecb = row.getD (bpr - 1) 0 then
          let next := decodeRows device n (rowIndex + 1) (input.drop bpr)
          (next.1.map (fun coords => emitRow rowIndex bpr row ++ coords), bpr + next.2)
        else (Except.error (.checksumMismatch rowIndex), bpr)

/-- The constructor `Bitstream::new` (lib.rs lines 58-103) over an explicit input byte list:
read the 4-byte big-endian JTAG ID, resolve the device, read and validate
the data-type byte, then run the row loop. The result is paired with the
number of input bytes consumed; short reads consume nothing at the failed
read itself. -/
def bitstream_new (input : List Nat) :
    Except DecodeError (Bitstream × List BitCoordinate) × Nat :=
  if input.length < 4 then (Except.error .truncatedInput, 0)
  else
    let idcode := be32 (input.take 4)
    match Device.try_from_jtag idcode with
    | none => (Except.error (.unknownDevice idcode), 4)
    | some device =>
      match input.drop 4 with
      | [] => (Except.error .truncatedInput, 4)
      | data_type :: rest =>
        if data_type &&& 0x1 ≠ 0 then (Except.error (.unsupportedMode .testData), 5)
        else if data_type &&& 0x2 ≠ 0 then (Except.error (.unsupportedMode .encrypted), 5)
        else if data_type &&& 0x4 ≠ 0 then (Except.error (.unsupportedMode .compressed), 5)
        else if data_type &&& 0xF8 ≠ 0 then (Except.error .reservedBitsSet, 5)
        else
          let next := decodeRows device device.rows 0 rest
          (next.1.map (fun coords => (⟨device, data_type⟩, coords)), 5 + next.2)

/-- Row `r` of a stream: bytes `5 + r * bpr` through `5 + (r + 1) * bpr` of
the input (after the 4-byte identifier and the mode byte). -/
def rowBytes (input : List Nat) (bpr r : Nat) : List Nat :=
  ((input.drop 5).drop (r * bpr)).take bpr

/-- The per-row error-check-byte comparison (lib.rs line 95): the checksum
of all bytes of the row but the last equals the last byte. -/
def row_checksum_ok (bpr : Nat) (row : List Nat) : Bool :=
  ecb_calc (row.take (bpr - 1)) == some (row.getD (bpr - 1) 0)

lemma row_checksum_ok_iff (bpr : Nat) (row : List Nat) :
    row_checksum_ok bpr row = true ↔
      ecb_calc (row.take (bpr - 1)) = some (row.getD (bpr - 1) 0) := by
  simp [row_checksum_ok]

/-- One successful iteration of the row loop: enough input, and the row's
error check byte matches. -/
lemma decodeRows_succ_good (device : Device) (n rowIndex : Nat) (input : List Nat)
    (hlen : ¬ input.length < device.bytes_per_row)
    (hck : ecb_calc ((input.take device.bytes_per_row).take (device.bytes_per_row - 1)) =
      some ((input.take device.bytes_per_row).getD (device.bytes_per_row - 1) 0)) :
    decodeRows device (n + 1) rowIndex input =
      ((decodeRows device n (rowIndex + 1) (input.drop device.bytes_per_row)).1.map
         (fun coords =>
           emitRow rowIndex device.bytes_per_row (input.take device.bytes_per_row) ++ coords),
       device.bytes_per_row +
         (decodeRows device n (rowIndex + 1) (input.drop device.bytes_per_row)).2) := by
  simp only [decodeRows]
  rw [if_neg hlen]
  split
  · rename_i h
    rw [h] at hck
    cases hck
  · rename_i ecb h
    rw [h] at hck
    rw [if_pos (Option.some_inj.mp hck)]

/-- One failing iteration of the row loop: enough input, but the row's
error check byte disagrees with the stored byte. -/
lemma decodeRows_succ_bad (device : Device) (n rowIndex : Nat) (input : List Nat)
    (hlen : ¬ input.length < device.bytes_per_row)
    (hbpr2 : 2 ≤ device.bytes_per_row)
    (hbad : row_checksum_ok device.bytes_per_row (input.take device.bytes_per_row) = false) :
    decodeRows device (n + 1) rowIndex input =
      (Except.error (.checksumMismatch rowIndex), device.bytes_per_row) := by
  have hrowlen : (input.take device.bytes_per_row).length = device.bytes_per_row := by
    rw [List.length_take]; omega
  have hne : (input.take device.bytes_per_row).take (device.bytes_per_row - 1) ≠ [] := by
    have hl : ((input.take device.bytes_per_row).take (device.bytes_per_row - 1)).length =
        device.bytes_per_row - 1 := by
      rw [List.length_take, hrowlen]; omega
    intro hnil
    rw [hnil] at hl
    simp at hl
    omega
  simp only [decodeRows]
  rw [if_neg hlen]
  split
  · rename_i h
    have := ecb_calc_isSome _ hne
    rw [h] at this
    cases this
  · rename_i ecb h
    have hne' : ecb ≠ (input.take device.bytes_per_row).getD (device.bytes_per_row - 1) 0 := by
      intro heq
      unfold row_checksum_ok at hbad
      rw [h, heq] at hbad
      simp at hbad
    rw [if_neg hne']

/-- When the next `n` rows all pass the error-check-byte comparison and the
input is long enough, the row loop succeeds, consumes exactly
`n * bytes_per_row` bytes, and emits the concatenation of the per-row
emissions in row order. -/
lemma decodeRows_all_ok (device : Device) (n : Nat) :
    ∀ (start : Nat) (rest : List Nat),
      n * device.bytes_per_row ≤ rest.length →
      (∀ r < n, row_checksum_ok device.bytes_per_row
        ((rest.drop (r * device.bytes_per_row)).take device.bytes_per_row) = true) →
      decodeRows device n start rest =
        (Except.ok ((List.range n).flatMap fun r =>
          emitRow (start + r) device.bytes_per_row
            ((rest.drop (r * device.bytes_per_row)).take device.bytes_per_row)),
         n * device.bytes_per_row) := by
  induction n with
  | zero => intro start rest _ _; simp [decodeRows]
  | succ n ih =>
    intro start rest hlen hrows
    have hbpr2 : 2 ≤ device.bytes_per_row := by cases device <;> decide
    have hlen' : device.bytes_per_row ≤ rest.length := by
      rw [Nat.succ_mul] at hlen; omega
    have h0 : row_checksum_ok device.bytes_per_row (rest.take device.bytes_per_row) = true := by
      simpa using hrows 0 (Nat.succ_pos n)
    have hck := (row_checksum_ok_iff device.bytes_per_row (rest.take device.bytes_per_row)).mp h0
    have hlen2 : n * device.bytes_per_row ≤ (rest.drop device.bytes_per_row).length := by
      rw [List.length_drop, Nat.succ_mul] at *; omega
    have hrows2 : ∀ r < n, row_checksum_ok device.bytes_per_row
        (((rest.drop device.bytes_per_row).drop (r * device.bytes_per_row)).take
          device.bytes_per_row) = true := by
      intro r hr
      have h2 : device.bytes_per_row + r * device.bytes_per_row =
          (r + 1) * device.bytes_per_row := by rw [Nat.succ_mul]; omega
      rw [List.drop_drop, h2]
      exact hrows (r + 1) (Nat.succ_lt_succ hr)
    rw [decodeRows_succ_good device n start rest (by omega) hck,
      ih (start + 1) (rest.drop device.bytes_per_row) hlen2 hrows2]
    have hcoords : ((List.range n).flatMap fun r =>
        emitRow (start + 1 + r) device.bytes_per_row
          (((rest.drop device.bytes_per_row).drop (r * device.bytes_per_row)).take
            device.bytes_per_row)) =
        ((List.range n).flatMap fun r =>
          emitRow (start + (r + 1)) device.bytes_per_row
            ((rest.drop ((r + 1) * device.bytes_per_row)).take device.bytes_per_row)) := by
      refine List.flatMap_congr fun r hr => ?_
      have h1 : start + 1 + r = start + (r + 1) := by omega
      have h2 : device.bytes_per_row + r * device.bytes_per_row =
          (r + 1) * device.bytes_per_row := by ring
      rw [List.drop_drop, h1, h2]
    have hcons : (List.range (n + 1)).flatMap (fun r =>
        emitRow (start + r) device.bytes_per_row
          ((rest.drop (r * device.bytes_per_row)).take device.bytes_per_row)) =
        emitRow start device.bytes_per_row (rest.take device.bytes_per_row) ++
          ((List.range n).flatMap fun r =>
            emitRow (start + (r + 1)) device.bytes_per_row
              ((rest.drop ((r + 1) * device.bytes_per_row)).take device.bytes_per_row)) := by
      rw [List.range_succ_eq_map, List.flatMap_cons, List.flatMap_map]
      simp [Nat.succ_eq_add_one]
    simp only [Except.map, hcoords, hcons]
    have hc : device.bytes_per_row + n * device.bytes_per_row =
        (n + 1) * device.bytes_per_row := by ring
    rw [hc]

/-- If the first `r` rows pass the error-check-byte comparison and row `r`
fails it, the row loop stops at row `r` with its index, consuming exactly
the rows up to and including `r`. -/
lemma decodeRows_first_bad (device : Device) (r : Nat) :
    ∀ (n start : Nat) (rest : List Nat), r < n →
      (r + 1) * device.bytes_per_row ≤ rest.length →
      (∀ r' < r, row_checksum_ok device.bytes_per_row
        ((rest.drop (r' * device.bytes_per_row)).take device.bytes_per_row) = true) →
      row_checksum_ok device.bytes_per_row
        ((rest.drop (r * device.bytes_per_row)).take device.bytes_per_row) = false →
      decodeRows device n start rest =
        (Except.error (.checksumMismatch (start + r)), (r + 1) * device.bytes_per_row) := by
  induction r with
  | zero =>
    intro n start rest hrn hlen hprev hbad
    obtain ⟨m, rfl⟩ : ∃ m, n = m + 1 := ⟨n - 1, by omega⟩
    have hbpr2 : 2 ≤ device.bytes_per_row := by cases device <;> decide
    have h01 : (0 + 1) * device.bytes_per_row = device.bytes_per_row := by ring
    have hlen' : ¬ rest.length < device.bytes_per_row := by omega
    have hbad' : row_checksum_ok device.bytes_per_row
        (rest.take device.bytes_per_row) = false := by simpa using hbad
    rw [decodeRows_succ_bad device m start rest hlen' hbpr2 hbad', Nat.add_zero, h01]
  | succ r ih =>
    intro n start rest hrn hlen hprev hbad
    obtain ⟨m, rfl⟩ : ∃ m, n = m + 1 := ⟨n - 1, by omega⟩
    have hexp : (r + 1 + 1) * device.bytes_per_row =
        (r + 1) * device.bytes_per_row + device.bytes_per_row := by ring
    have hlen' : ¬ rest.length < device.bytes_per_row := by omega
    have h0 : row_checksum_ok device.bytes_per_row
        (rest.take device.bytes_per_row) = true := by
      simpa using hprev 0 (Nat.succ_pos r)
    have hck := (row_checksum_ok_iff device.bytes_per_row
      (rest.take device.bytes_per_row)).mp h0
    rw [decodeRows_succ_good device m start rest hlen' hck]
    have hshift : ∀ k : Nat, device.bytes_per_row + k * device.bytes_per_row =
        (k + 1) * device.bytes_per_row := fun k => by ring
    rw [ih m (start + 1) (rest.drop device.bytes_per_row) (by omega)
      (by rw [List.length_drop]; omega)
      (fun r' hr' => by
        rw [List.drop_drop, hshift r']
        exact hprev (r' + 1) (by omega))
      (by rw [List.drop_drop, hshift r]; exact hbad)]
    simp only [Except.map]
    have e1 : start + 1 + r = start + (r + 1) := by omega
    have e2 : device.bytes_per_row + (r + 1) * device.bytes_per_row =
        (r + 1 + 1) * device.bytes_per_row := by ring
    rw [e1, e2]

/-- C9: a row built as payload plus the payload's checksum byte passes the
row validation of lib.rs line 95. -/
theorem row_roundtrip (payload : List Nat) (c : Nat)
    (hc : ecb_calc payload = some c) :
    row_checksum_ok (payload.length + 1) (payload ++ [c]) = true := by
  unfold row_checksum_ok
  have htake : (payload ++ [c]).take (payload.length + 1 - 1) = payload := by
    simp
  have hget : (payload ++ [c]).getD (payload.length + 1 - 1) 0 = c := by
    simp [List.getD_eq_getElem?_getD, List.getElem?_append_right]
  rw [htake, hget, hc]
  simp

/-- Witness for C9 at the payload `[1, 2, 3]`, whose checksum is 8. -/
theorem row_roundtrip_witness :
    ecb_calc [1, 2, 3] = some 8 ∧
    row_checksum_ok (([1, 2, 3] : List Nat).length + 1) ([1, 2, 3] ++ [8]) = true :=
  ⟨by decide, row_roundtrip [1, 2, 3] 8 (by decide)⟩

/-- Evaluating `bitstream_new` past a successfully resolved device: the
header is consumed and the mode-byte checks run in source order. -/
lemma bitstream_new_eval (input : List Nat) (device : Device)
    (hlen : 5 ≤ input.length)
    (hdev : Device.try_from_jtag (be32 (input.take 4)) = some device) :
    bitstream_new input =
      (if input.getD 4 0 &&& 0x1 ≠ 0 then (Except.error (.unsupportedMode .testData), 5)
       else if input.getD 4 0 &&& 0x2 ≠ 0 then (Except.error (.unsupportedMode .encrypted), 5)
       else if input.getD 4 0 &&& 0x4 ≠ 0 then (Except.error (.unsupportedMode .compressed), 5)
       else if input.getD 4 0 &&& 0xF8 ≠ 0 then (Except.error .reservedBitsSet, 5)
       else
         ((decodeRows device device.rows 0 (input.drop 5)).1.map
            (fun coords => (⟨device, input.getD 4 0⟩, coords)),
          5 + (decodeRows device device.rows 0 (input.drop 5)).2)) := by
  have h4 : 4 < input.length := by omega
  have hm4 : input[4] = input.getD 4 0 := by
    simp [List.getD_eq_getElem?_getD, List.getElem?_eq_getElem h4]
  have hdrop : input.drop 4 = input.getD 4 0 :: input.drop 5 := by
    rw [List.drop_eq_getElem_cons h4, hm4]
  unfold bitstream_new
  rw [if_neg (by omega)]
  simp only [hdev, hdrop]

/-- C5: once the stream's identifier resolves to a device, a mode byte with
bit 0, 1 or 2 set makes decoding fail with `UnsupportedMode` naming the
test-data, encrypted or compressed flag respectively, checked in that
order, then nonzero reserved bits 3-7 fail as `ReservedBitsSet`; all four
failures consume exactly the 5 header bytes, so no row byte is read. -/
theorem mode_byte_checks (input : List Nat) (device : Device) (m : Nat)
    (hlen : 5 ≤ input.length)
    (hdev : Device.try_from_jtag (be32 (input.take 4)) = some device)
    (hm : input.getD 4 0 = m) :
    (m &&& 0x1 ≠ 0 →
      bitstream_new input = (Except.error (.unsupportedMode .testData), 5)) ∧
    (m &&& 0x1 = 0 → m &&& 0x2 ≠ 0 →
      bitstream_new input = (Except.error (.unsupportedMode .encrypted), 5)) ∧
    (m &&& 0x1 = 0 → m &&& 0x2 = 0 → m &&& 0x4 ≠ 0 →
      bitstream_new input = (Except.error (.unsupportedMode .compressed), 5)) ∧
    (m &&& 0x1 = 0 → m &&& 0x2 = 0 → m &&& 0x4 = 0 → m &&& 0xF8 ≠ 0 →
      bitstream_new input = (Except.error .reservedBitsSet, 5)) := by
  subst hm
  rw [bitstream_new_eval input device hlen hdev]
  refine ⟨fun h1 => ?_, fun h1 h2 => ?_, fun h1 h2 h3 => ?_, fun h1 h2 h3 h4 => ?_⟩
  · rw [if_pos h1]
  · rw [if_neg (by simpa using h1), if_pos h2]
  · rw [if_neg (by simpa using h1), if_neg (by simpa using h2), if_pos h3]
  · rw [if_neg (by simpa using h1), if_neg (by simpa using h2),
      if_neg (by simpa using h3), if_pos h4]

/-- Witness for C5: a 5-byte MPA1016 stream whose mode byte is 0x01. -/
theorem mode_byte_checks_witness :
    ((5 : Nat) ≤ ([0x13, 0x90, 0xE0, 0x1D, 0x01] : List Nat).length ∧
     Device.try_from_jtag (be32 (([0x13, 0x90, 0xE0, 0x1D, 0x01] : List Nat).take 4)) =
       some Device.Mpa1016 ∧
     ([0x13, 0x90, 0xE0, 0x1D, 0x01] : List Nat).getD 4 0 = 1 ∧ (1 : Nat) &&& 0x1 ≠ 0) ∧
    bitstream_new [0x13, 0x90, 0xE0, 0x1D, 0x01] =
      (Except.error (.unsupportedMode .testData), 5) :=
  ⟨⟨by decide, by decide, by decide, by decide⟩,
   (mode_byte_checks [0x13, 0x90, 0xE0, 0x1D, 0x01] Device.Mpa1016 1
      (by decide) (by decide) (by decide)).1 (by decide)⟩

/-- C6: a stream whose first four bytes decode (big-endian) to an
unrecognized identifier fails with `UnknownDevice` carrying that
identifier, after consuming only the 4 identifier bytes (at most 5). -/
theorem unknown_device_fails (input : List Nat)
    (hlen : 4 ≤ input.length)
    (hdev : Device.try_from_jtag (be32 (input.take 4)) = none) :
    bitstream_new input = (Except.error (.unknownDevice (be32 (input.take 4))), 4) ∧
    (bitstream_new input).2 ≤ 5 := by
  have heq : bitstream_new input =
      (Except.error (.unknownDevice (be32 (input.take 4))), 4) := by
    unfold bitstream_new
    rw [if_neg (by omega)]
    simp only [hdev]
  exact ⟨heq, by rw [heq]; omega⟩

/-- Witness for C6: the 5-byte stream `[0, 0, 0, 0, 7]`, whose identifier 0
is not cataloged. -/
theorem unknown_device_fails_witness :
    ((4 : Nat) ≤ ([0, 0, 0, 0, 7] : List Nat).length ∧
     Device.try_from_jtag (be32 (([0, 0, 0, 0, 7] : List Nat).take 4)) = none) ∧
    (bitstream_new [0, 0, 0, 0, 7] =
      (Except.error (.unknownDevice (be32 (([0, 0, 0, 0, 7] : List Nat).take 4))), 4) ∧
     (bitstream_new [0, 0, 0, 0, 7]).2 ≤ 5) :=
  ⟨⟨by decide, by decide⟩, unknown_device_fails [0, 0, 0, 0, 7] (by decide) (by decide)⟩

/-- The coordinate sequence as §3/§4.3 of the spec word it: for each row
index below `rows`, each column index up to `bytes_per_row - 2`, and each
bit index 0-7, emit the triple whenever bit `bit` of that payload byte is
set (bit 0 least significant), nested in that ascending order. -/
def specCoords (rows bpr : Nat) (byteAt : Nat → Nat → Nat) : List BitCoordinate :=
  (List.range rows).flatMap (fun r =>
    (List.range (bpr - 1)).flatMap (fun c =>
      (List.range 8).filterMap (fun b =>
        if (byteAt r c).testBit b then some ⟨r, c, b⟩ else none)))

lemma and_shift_ne_zero (x b : Nat) : ((x &&& (1 <<< b)) != 0) = x.testBit b := by
  rw [Nat.shiftLeft_eq, one_mul, Nat.and_two_pow]
  cases h : x.testBit b <;> simp [Nat.pos_iff_ne_zero]

/-- The source's bit test `row[c] & (1 << bit) != 0` emits exactly the set
bits of the byte, in `testBit` terms. -/
lemma emitRow_eq_spec (rowIndex bpr : Nat) (row : List Nat) :
    emitRow rowIndex bpr row =
      (List.range (bpr - 1)).flatMap (fun c =>
        (List.range 8).filterMap (fun b =>
          if (row.getD c 0).testBit b then some ⟨rowIndex, c, b⟩ else none)) := by
  unfold emitRow
  simp only [and_shift_ne_zero]

/-- C7: a well-formed stream of a known device decodes successfully, and
the emitted coordinates are exactly the set bits of the payload bytes of
each row (checksum byte excluded, bit 0 least significant), in row-major,
then column-ascending, then bit-ascending order. -/
theorem decode_emits_exactly_set_bits (input : List Nat) (device : Device)
    (hdev : Device.try_from_jtag (be32 (input.take 4)) = some device)
    (hmode : input.getD 4 0 = 0)
    (hlen : 5 + device.rows * device.bytes_per_row ≤ input.length)
    (hrows : ∀ r < device.rows, row_checksum_ok device.bytes_per_row
      (rowBytes input device.bytes_per_row r) = true) :
    bitstream_new input =
      (Except.ok (⟨device, 0⟩,
        specCoords device.rows device.bytes_per_row
          (fun r c => (rowBytes input device.bytes_per_row r).getD c 0)),
       5 + device.rows * device.bytes_per_row) := by
  have h5 : 5 ≤ input.length := by omega
  rw [bitstream_new_eval input device h5 hdev, hmode]
  rw [if_neg (by decide), if_neg (by decide), if_neg (by decide), if_neg (by decide)]
  rw [decodeRows_all_ok device device.rows 0 (input.drop 5)
    (by rw [List.length_drop]; omega) hrows]
  simp only [Except.map]
  have hco : ((List.range device.rows).flatMap fun r =>
      emitRow (0 + r) device.bytes_per_row
        (((input.drop 5).drop (r * device.bytes_per_row)).take device.bytes_per_row)) =
      specCoords device.rows device.bytes_per_row
        (fun r c => (rowBytes input device.bytes_per_row r).getD c 0) := by
    simp only [specCoords, rowBytes]
    refine List.flatMap_congr fun r hr => ?_
    rw [Nat.zero_add, emitRow_eq_spec]
  rw [hco]

/-- C8: with a valid header, if rows before `r` pass the checksum and row
`r` fails it, decoding fails with `ChecksumMismatch` carrying index `r`,
consuming exactly the header and rows `0..r` — no later row is read. -/
theorem checksum_mismatch_aborts (input : List Nat) (device : Device) (r : Nat)
    (hdev : Device.try_from_jtag (be32 (input.take 4)) = some device)
    (hmode : input.getD 4 0 = 0)
    (hr : r < device.rows)
    (hlen : 5 + (r + 1) * device.bytes_per_row ≤ input.length)
    (hprev : ∀ r' < r, row_checksum_ok device.bytes_per_row
      (rowBytes input device.bytes_per_row r') = true)
    (hbad : row_checksum_ok device.bytes_per_row
      (rowBytes input device.bytes_per_row r) = false) :
    bitstream_new input =
      (Except.error (.checksumMismatch r), 5 + (r + 1) * device.bytes_per_row) := by
  have h5 : 5 ≤ input.length := by omega
  rw [bitstream_new_eval input device h5 hdev, hmode]
  rw [if_neg (by decide), if_neg (by decide), if_neg (by decide), if_neg (by decide)]
  rw [decodeRows_first_bad device r device.rows 0 (input.drop 5) hr
    (by rw [List.length_drop]; omega) hprev hbad]
  simp only [Except.map, Nat.zero_add]

/-- One all-zero MPA1016 row: 71 zero payload bytes plus checksum byte
0x46 (the checksum of 71 zero bytes). -/
def mpa1016ZeroRow : List Nat := List.replicate 71 0 ++ [0x46]

/-- A well-formed MPA1016 stream: zero mode byte and 95 all-zero rows. -/
def mpa1016ZeroStream : List Nat :=
  [0x13, 0x90, 0xE0, 0x1D, 0x00] ++ (List.replicate 95 mpa1016ZeroRow).flatten

lemma length_flatten_replicate {α : Type} (n : Nat) (l : List α) :
    ((List.replicate n l).flatten).length = n * l.length := by
  induction n with
  | zero => simp
  | succ n ih =>
    rw [List.replicate_succ, List.flatten_cons, List.length_append, ih]
    ring

lemma flatten_replicate_row {α : Type} (l : List α) (k : Nat) (hk : l.length = k) :
    ∀ n r : Nat, r < n →
      ((List.replicate n l).flatten.drop (r * k)).take k = l := by
  intro n
  induction n with
  | zero => intro r hr; exact absurd hr (Nat.not_lt_zero r)
  | succ n ih =>
    intro r hr
    cases r with
    | zero =>
      rw [List.replicate_succ, List.flatten_cons, Nat.zero_mul, List.drop_zero,
        ← hk, List.take_left]
    | succ r =>
      have hmul : (r + 1) * k = l.length + r * k := by rw [hk]; ring
      rw [List.replicate_succ, List.flatten_cons, hmul, List.drop_append]
      exact ih r (by omega)

lemma mpa1016ZeroStream_rows : ∀ r < 95,
    rowBytes mpa1016ZeroStream 72 r = mpa1016ZeroRow := by
  intro r hr
  have hdrop5 : mpa1016ZeroStream.drop 5 = (List.replicate 95 mpa1016ZeroRow).flatten := rfl
  unfold rowBytes
  rw [hdrop5, flatten_replicate_row mpa1016ZeroRow 72 (by decide) 95 r hr]

lemma mpa1016ZeroStream_length : mpa1016ZeroStream.length = 5 + 95 * 72 := by
  unfold mpa1016ZeroStream
  rw [List.length_append, length_flatten_replicate]
  norm_num [mpa1016ZeroRow]

/-- Witness for C7 on the all-zero MPA1016 stream. -/
theorem decode_emits_exactly_set_bits_witness :
    (Device.try_from_jtag (be32 (mpa1016ZeroStream.take 4)) = some Device.Mpa1016 ∧
     mpa1016ZeroStream.getD 4 0 = 0 ∧
     5 + Device.rows .Mpa1016 * Device.bytes_per_row .Mpa1016 ≤ mpa1016ZeroStream.length ∧
     (∀ r < Device.rows .Mpa1016, row_checksum_ok (Device.bytes_per_row .Mpa1016)
       (rowBytes mpa1016ZeroStream (Device.bytes_per_row .Mpa1016) r) = true)) ∧
    bitstream_new mpa1016ZeroStream =
      (Except.ok (⟨.Mpa1016, 0⟩,
        specCoords (Device.rows .Mpa1016) (Device.bytes_per_row .Mpa1016)
          (fun r c => (rowBytes mpa1016ZeroStream (Device.bytes_per_row .Mpa1016) r).getD c 0)),
       5 + Device.rows .Mpa1016 * Device.bytes_per_row .Mpa1016) := by
  have hdev : Device.try_from_jtag (be32 (mpa1016ZeroStream.take 4)) = some Device.Mpa1016 := by
    rfl
  have hmode : mpa1016ZeroStream.getD 4 0 = 0 := rfl
  have hlen : 5 + Device.rows .Mpa1016 * Device.bytes_per_row .Mpa1016 ≤
      mpa1016ZeroStream.length := by
    rw [mpa1016ZeroStream_length]
    norm_num [Device.rows, Device.bytes_per_row]
  have hrows : ∀ r < Device.rows .Mpa1016, row_checksum_ok (Device.bytes_per_row .Mpa1016)
      (rowBytes mpa1016ZeroStream (Device.bytes_per_row .Mpa1016) r) = true := by
    intro r hr
    have h72 : Device.bytes_per_row .Mpa1016 = 72 := rfl
    rw [h72, mpa1016ZeroStream_rows r (by rw [Device.rows] at hr; omega)]
    decide
  exact ⟨⟨hdev, hmode, hlen, hrows⟩,
    decode_emits_exactly_set_bits mpa1016ZeroStream Device.Mpa1016 hdev hmode hlen hrows⟩

/-- An MPA1016 stream whose row 0 stores checksum byte 0x01 where the
payload's checksum is 0x46. -/
def mpa1016BadRowStream : List Nat :=
  [0x13, 0x90, 0xE0, 0x1D, 0x00] ++ List.replicate 71 0 ++ [0x01]

/-- Witness for C8 on the stream whose row 0 checksum byte is wrong. -/
theorem checksum_mismatch_aborts_witness :
    (Device.try_from_jtag (be32 (mpa1016BadRowStream.take 4)) = some Device.Mpa1016 ∧
     mpa1016BadRowStream.getD 4 0 = 0 ∧
     (0 : Nat) < Device.rows .Mpa1016 ∧
     5 + (0 + 1) * Device.bytes_per_row .Mpa1016 ≤ mpa1016BadRowStream.length ∧
     (∀ r' < 0, row_checksum_ok (Device.bytes_per_row .Mpa1016)
       (rowBytes mpa1016BadRowStream (Device.bytes_per_row .Mpa1016) r') = true) ∧
     row_checksum_ok (Device.bytes_per_row .Mpa1016)
       (rowBytes mpa1016BadRowStream (Device.bytes_per_row .Mpa1016) 0) = false) ∧
    bitstream_new mpa1016BadRowStream =
      (Except.error (.checksumMismatch 0), 5 + (0 + 1) * Device.bytes_per_row .Mpa1016) :=
  ⟨⟨by decide, by decide, by decide, by decide, by decide, by decide⟩,
   checksum_mismatch_aborts mpa1016BadRowStream Device.Mpa1016 0
     (by decide) (by decide) (by decide) (by decide) (by decide) (by decide)⟩

end Glassworks
